import Mathlib

/-!
# Verification of the `proof_of_proximity` VDF core (`src/vdf/mod.rs`)

A shallow embedding of the Wesolowski-style VDF prover/verifier from
`src/vdf/mod.rs`.  Arbitrary-precision `ramp::Int` values that are always
non-negative in the code (modulus, base, result, cap, proof) are embedded as
`Nat`; `pow_mod x e m` is embedded as `x ^ e % m`; `usize` is embedded as
`Nat`, with the `usize::MAX` comparison made against `2^64 - 1`.

The concurrent worker (`VDF::run_vdf_worker`) is embedded as a fuel-indexed
loop.  The nondeterministic ingredients of a session are explicit parameters:
`recv i` is what the non-blocking `try_recv` poll of the cap channel returns
on the iteration with counter `i`, and `fresh` is the value the external
`ramp_primes::Generator::new_safe_prime(128)` call would return.  The worker
emits at most one message, matching the Rust loop which `break`s right after
its single `send`.
-/

/-- Result record (`VDFResult` in `src/vdf/mod.rs`, lines 29-33): the final
squaring output together with the number of iterations performed. -/
structure VDFResult where
  result : Nat
  iterations : Nat
deriving DecidableEq, Repr

/-- Comparison of results (`impl Ord for VDFResult`, lines 36-40): results
are ordered by their `iterations` field only. -/
def VDFResult.cmp (a b : VDFResult) : Ordering :=
  compare a.iterations b.iterations

/-- Proof record (`VDFProof`, lines 57-64). -/
structure VDFProof where
  modulus : Nat
  base : Nat
  output : VDFResult
  cap : Nat
  proof : Nat
deriving DecidableEq, Repr

/-- Field-by-field equality of proofs (`impl PartialEq for VDFProof`,
lines 66-74, together with `impl PartialEq for VDFResult`, lines 48-52). -/
def VDFProof.eqFields (a b : VDFProof) : Bool :=
  (a.output.result == b.output.result && a.output.iterations == b.output.iterations)
    && a.proof == b.proof
    && a.modulus == b.modulus
    && a.base == b.base
    && a.cap == b.cap

/-- One pass of the loop body of `VDFProof::new` (lines 83-88).  The state is
the pair `(proof, r)`; the body computes `b = 2*r / cap`, updates
`r = 2*r % cap` and sets `proof = (proof^2 mod N) * (base^b mod N) mod N`. -/
def proofStep (modulus base cap : Nat) (st : Nat × Nat) : Nat × Nat :=
  let b := 2 * st.2 / cap
  let r := 2 * st.2 % cap
  ((st.1 ^ 2 % modulus) * (base ^ b % modulus) % modulus, r)

/-- The state of `VDFProof::new` after `T` passes of the loop, starting from
`proof = 1`, `r = 1` (lines 79-80). -/
def proofLoop (modulus base cap : Nat) : Nat → Nat × Nat
  | 0 => (1, 1)
  | T + 1 => proofStep modulus base cap (proofLoop modulus base cap T)

/-- Constructor `VDFProof::new` (lines 78-102): runs the loop
`result.iterations` times and packages the five fields. -/
def VDFProof.new (modulus base : Nat) (result : VDFResult) (cap : Nat) : VDFProof :=
  { modulus := modulus
    base := base
    output := result
    cap := cap
    proof := (proofLoop modulus base cap result.iterations).1 }

/-- Verifier `VDFProof::verify` (lines 105-114): reject when
`proof > modulus` (a strict comparison in the source), otherwise accept iff
`result = (proof^cap mod N) * (base^(iterations^2 mod cap) mod N) mod N`. -/
def VDFProof.verify (p : VDFProof) : Bool :=
  if p.modulus < p.proof then false
  else
    let r := p.output.iterations ^ 2 % p.cap
    p.output.result == (p.proof ^ p.cap % p.modulus) * (p.base ^ r % p.modulus) % p.modulus

/-- Secondary predicate `VDFProof::validate` (lines 116-118). -/
def VDFProof.validate (p : VDFProof) : Bool :=
  Nat.gcd p.modulus p.base == 1 && Nat.gcd p.modulus p.cap == 1

/-- Helper `VDFProof::abs_difference` (lines 121-127): the branch is selected
by `self.output > other.output`, which by `Ord for VDFResult` compares the
`iterations` fields. -/
def VDFProof.abs_difference (a b : VDFProof) : Nat :=
  if VDFResult.cmp a.output b.output = Ordering.gt then
    a.output.iterations - b.output.iterations
  else
    b.output.iterations - a.output.iterations

/-- Safe-primality test: `n` is prime and so is `(n - 1) / 2`.  This embeds
the external `ramp_primes::Verification::verify_safe_prime` call (an external
collaborator of the core; the spec's glossary defines a safe prime as a prime
`p` with `(p - 1)/2` prime).  Primality itself is decided through
`Nat.minFac`. -/
def isPrime (n : Nat) : Bool :=
  2 ≤ n && n.minFac == n

def verify_safe_prime (n : Nat) : Bool :=
  isPrime n && isPrime ((n - 1) / 2)

/-- Value of `usize::MAX` on the 64-bit targets the crate is built for. -/
def usizeMax : Nat := 2 ^ 64 - 1

/-- Messages on the proof-output channel: the Rust worker sends a single
`Result<VDFProof, InvalidCapError>`. -/
inductive WorkerMsg where
  | ok (p : VDFProof) : WorkerMsg
  | invalidCap : WorkerMsg
deriving DecidableEq, Repr

/-- Session options (`VDF`, lines 131-137). -/
structure VDF where
  modulus : Nat
  base : Nat
  upper_bound : Nat
  cap : Nat
deriving DecidableEq, Repr

/-- Builder `VDF::new` (lines 141-148): the cap defaults to zero. -/
def VDF.new (modulus base upper_bound : Nat) : VDF :=
  { modulus := modulus, base := base, upper_bound := upper_bound, cap := 0 }

/-- Builder `VDF::with_cap` (lines 151-154). -/
def VDF.with_cap (v : VDF) (cap : Nat) : VDF :=
  { v with cap := cap }

/-- Body of the worker loop spawned by `VDF::run_vdf_worker` (lines 180-243),
as a fuel-indexed function of the mutable state `(result, iterations)`.
Each pass squares `result` modulo `N` and increments `iterations`; if the
counter hits `upper_bound` (or `usize::MAX`) the worker finalizes with the
preinstalled cap — replaced by the fresh safe prime when it is zero, and
rejected with `InvalidCap` when nonzero but not a safe prime (lines 187-212).
Otherwise it polls the cap channel: a received cap that passes the safe-prime
test yields a proof, a failing one yields `InvalidCap` (lines 213-242).
`none` means the fuel ran out before the loop terminated. -/
def vdf_worker_loop (N g ub cap fresh : Nat) (recv : Nat → Option Nat) :
    Nat → Nat → Nat → Option WorkerMsg
  | _, _, 0 => none
  | result, iterations, fuel + 1 =>
    if iterations + 1 = ub ∨ iterations + 1 = usizeMax then
      if cap = 0 then
        some (WorkerMsg.ok (VDFProof.new N g ⟨result ^ 2 % N, iterations + 1⟩ fresh))
      else if verify_safe_prime cap then
        some (WorkerMsg.ok (VDFProof.new N g ⟨result ^ 2 % N, iterations + 1⟩ cap))
      else
        some WorkerMsg.invalidCap
    else
      match recv (iterations + 1) with
      | some c =>
        if verify_safe_prime c then
          some (WorkerMsg.ok (VDFProof.new N g ⟨result ^ 2 % N, iterations + 1⟩ c))
        else
          some WorkerMsg.invalidCap
      | none =>
        vdf_worker_loop N g ub cap fresh recv (result ^ 2 % N) (iterations + 1) fuel

/-- Worker `VDF::run_vdf_worker` (lines 176-247): the loop starts from
`result = base`, `iterations = 0` (lines 181-182). -/
def VDF.run_vdf_worker (v : VDF) (fresh : Nat) (recv : Nat → Option Nat)
    (fuel : Nat) : Option WorkerMsg :=
  vdf_worker_loop v.modulus v.base v.upper_bound v.cap fresh recv v.base 0 fuel

/-- Cap-channel contents in `VDF::estimate_upper_bound`: a single value
`genPrime` (the external `Generator::new_prime(128)` output, line 159) made
visible to the worker's poll from iteration `arrival` on (the iteration the
worker reaches when the `ms_bound` sleep of lines 162-164 ends). -/
def capRecv (arrival genPrime : Nat) : Nat → Option Nat :=
  fun i => if arrival ≤ i then some genPrime else none

/-- Calibrator `VDF::estimate_upper_bound` (lines 158-172): runs a worker on
a clone of the session, sends `genPrime`, and overwrites `upper_bound` with
the emitted proof's `iterations` field when — and only when — the worker
replies with a proof. -/
def VDF.estimate_upper_bound (v : VDF) (genPrime fresh arrival fuel : Nat) : VDF :=
  match v.run_vdf_worker fresh (capRecv arrival genPrime) fuel with
  | some (WorkerMsg.ok p) => { v with upper_bound := p.output.iterations }
  | _ => v

/-- The update `estimate_upper_bound` applies to the session once the worker
replies (lines 166-171 of `src/vdf/mod.rs`): `upper_bound` is overwritten
with the proof's iteration count on `Ok(proof)`, and kept on an
`InvalidCapError` reply. -/
def calibrationResult (v : VDF) (m : WorkerMsg) : VDF :=
  match m with
  | WorkerMsg.ok p => { v with upper_bound := p.output.iterations }
  | WorkerMsg.invalidCap => v

/-- Repeated squaring: the value of the worker's `result` variable after `T`
passes of `result = result^2 mod N` starting from `g`. -/
def squarings (N g : Nat) : Nat → Nat
  | 0 => g
  | T + 1 => squarings N g T ^ 2 % N

/-! ## Core lemmas about the proof-construction loop -/

/-- Unfolding lemma for the projections of `VDFProof.new`. -/
lemma VDFProof.new_output (modulus base : Nat) (result : VDFResult) (cap : Nat) :
    (VDFProof.new modulus base result cap).output = result := rfl

lemma VDFProof.new_cap (modulus base : Nat) (result : VDFResult) (cap : Nat) :
    (VDFProof.new modulus base result cap).cap = cap := rfl

/-- The running remainder of the construction loop: after `T` passes,
`r = 2^T mod ℓ`. -/
lemma proofLoop_snd (N g ℓ : Nat) (hℓ : 1 < ℓ) :
    ∀ T, (proofLoop N g ℓ T).2 = 2 ^ T % ℓ := by
  intro T
  induction T with
  | zero =>
    simp [proofLoop, Nat.mod_eq_of_lt hℓ]
  | succ T ih =>
    show 2 * (proofLoop N g ℓ T).2 % ℓ = 2 ^ (T + 1) % ℓ
    rw [ih, pow_succ, Nat.mul_comm (2 ^ T) 2, Nat.mul_mod 2 (2 ^ T) ℓ,
      Nat.mul_mod 2 (2 ^ T % ℓ) ℓ, Nat.mod_mod_of_dvd (2 ^ T) dvd_rfl]

/-- Dividing the doubling: `2x / ℓ = 2(x / ℓ) + 2(x mod ℓ) / ℓ`. -/
lemma two_mul_div (x ℓ : Nat) (hℓ : 0 < ℓ) :
    2 * x / ℓ = 2 * (x / ℓ) + 2 * (x % ℓ) / ℓ := by
  conv_lhs => rw [← Nat.div_add_mod x ℓ]
  rw [Nat.mul_add, Nat.mul_left_comm, Nat.add_comm, Nat.add_mul_div_left _ _ hℓ,
    Nat.add_comm]

/-- The accumulated proof of the construction loop: after `T` passes,
`proof = g^(2^T / ℓ) mod N`. -/
lemma proofLoop_fst (N g ℓ : Nat) (hN : 1 < N) (hℓ : 1 < ℓ) :
    ∀ T, (proofLoop N g ℓ T).1 = g ^ (2 ^ T / ℓ) % N := by
  intro T
  induction T with
  | zero =>
    simp [proofLoop, Nat.div_eq_of_lt hℓ, Nat.mod_eq_of_lt hN]
  | succ T ih =>
    show (proofStep N g ℓ (proofLoop N g ℓ T)).1 = g ^ (2 ^ (T + 1) / ℓ) % N
    have hq : 2 ^ (T + 1) / ℓ = 2 * (2 ^ T / ℓ) + 2 * (2 ^ T % ℓ) / ℓ := by
      rw [pow_succ, Nat.mul_comm]
      exact two_mul_div _ _ (Nat.lt_of_lt_of_le Nat.zero_lt_one hℓ.le)
    simp only [proofStep, ih, proofLoop_snd N g ℓ hℓ, hq]
    rw [← Nat.pow_mod, ← Nat.mul_mod, ← pow_mul, ← pow_add,
      Nat.mul_comm (2 ^ T / ℓ) 2]

/-- The running remainder stays below the cap. -/
lemma proofLoop_snd_lt (N g ℓ : Nat) (hℓ : 1 < ℓ) (T : Nat) :
    (proofLoop N g ℓ T).2 < ℓ := by
  rw [proofLoop_snd N g ℓ hℓ]
  exact Nat.mod_lt _ (Nat.lt_of_lt_of_le Nat.zero_lt_one hℓ.le)

/-- The quotient bit emitted on each pass is 0 or 1. -/
lemma proofLoop_bit_le_one (N g ℓ : Nat) (hℓ : 1 < ℓ) (T : Nat) :
    2 * (proofLoop N g ℓ T).2 / ℓ ≤ 1 := by
  have hpos : 0 < ℓ := Nat.lt_of_lt_of_le Nat.zero_lt_one hℓ.le
  have hr := proofLoop_snd_lt N g ℓ hℓ T
  have h2 : 2 * (proofLoop N g ℓ T).2 < 2 * ℓ := by omega
  have := (Nat.div_lt_iff_lt_mul hpos).mpr h2
  omega

/-! ## Core lemmas about the worker loop -/

/-- Shape of every proof emitted by the worker loop: when the loop is entered
with `result = squarings N g it` (as it is at spawn, where `it = 0` and
`result = g`), any emitted proof is fully determined by the modulus, the
base, its own iteration count, and its own cap field. -/
lemma vdf_worker_loop_ok_shape (N g ub cap fresh : Nat) (recv : Nat → Option Nat) :
    ∀ fuel it p,
      vdf_worker_loop N g ub cap fresh recv (squarings N g it) it fuel
          = some (WorkerMsg.ok p) →
      p = VDFProof.new N g
            ⟨squarings N g p.output.iterations, p.output.iterations⟩ p.cap := by
  intro fuel
  induction fuel with
  | zero =>
    intro it p h
    simp [vdf_worker_loop] at h
  | succ fuel ih =>
    intro it p h
    rw [vdf_worker_loop] at h
    split at h
    · split at h
      · simp only [Option.some.injEq, WorkerMsg.ok.injEq] at h
        subst h
        rfl
      · split at h
        · simp only [Option.some.injEq, WorkerMsg.ok.injEq] at h
          subst h
          rfl
        · simp at h
    · split at h
      · split at h
        · simp only [Option.some.injEq, WorkerMsg.ok.injEq] at h
          subst h
          rfl
        · simp at h
      · exact ih (it + 1) p h

/-- Iteration bounds of every proof emitted by the worker loop, provided the
counter starts below the upper bound. -/
lemma vdf_worker_loop_iterations (N g ub cap fresh : Nat) (recv : Nat → Option Nat) :
    ∀ fuel res it p, it < ub →
      vdf_worker_loop N g ub cap fresh recv res it fuel = some (WorkerMsg.ok p) →
      1 ≤ p.output.iterations ∧ p.output.iterations ≤ ub := by
  intro fuel
  induction fuel with
  | zero =>
    intro res it p _ h
    simp [vdf_worker_loop] at h
  | succ fuel ih =>
    intro res it p hit h
    rw [vdf_worker_loop] at h
    split at h
    · split at h
      · simp only [Option.some.injEq, WorkerMsg.ok.injEq] at h
        subst h
        exact ⟨Nat.succ_le_succ (Nat.zero_le _), hit⟩
      · split at h
        · simp only [Option.some.injEq, WorkerMsg.ok.injEq] at h
          subst h
          exact ⟨Nat.succ_le_succ (Nat.zero_le _), hit⟩
        · simp at h
    · rename_i hcond
      split at h
      · split at h
        · simp only [Option.some.injEq, WorkerMsg.ok.injEq] at h
          subst h
          exact ⟨Nat.succ_le_succ (Nat.zero_le _), hit⟩
        · simp at h
      · refine ih _ (it + 1) p ?_ h
        push_neg at hcond
        omega

/-- Provenance of every `InvalidCap` emission: the nonzero preinstalled cap
failed the safe-prime test at the upper bound, or some received channel cap
failed it. -/
lemma vdf_worker_loop_invalid (N g ub cap fresh : Nat) (recv : Nat → Option Nat) :
    ∀ fuel res it,
      vdf_worker_loop N g ub cap fresh recv res it fuel = some WorkerMsg.invalidCap →
      (cap ≠ 0 ∧ verify_safe_prime cap = false) ∨
        ∃ i c, recv i = some c ∧ verify_safe_prime c = false := by
  intro fuel
  induction fuel with
  | zero =>
    intro res it h
    simp [vdf_worker_loop] at h
  | succ fuel ih =>
    intro res it h
    rw [vdf_worker_loop] at h
    split at h
    · split at h
      · simp at h
      · rename_i hcap0
        split at h
        · simp at h
        · rename_i hbad
          exact Or.inl ⟨hcap0, by simpa using hbad⟩
    · split at h
      · rename_i c hrecv
        split at h
        · simp at h
        · rename_i hbad
          exact Or.inr ⟨it + 1, c, hrecv, by simpa using hbad⟩
      · exact ih _ (it + 1) h

/-! ## Claim theorems -/

/-- C1.  Soundness round-trip fails on the code: with `N = 91`, `g = 3`,
`T_max = 3` and preinstalled cap `ℓ = 5` — a safe prime coprime to `N` — the
worker stops at `T = 3` with `y = squarings 91 3 3 = 9` and emits the proof
built by `VDFProof::new`, yet `verify()` rejects that proof: the verifier
recomputes the remainder as `T² mod ℓ = 4` although the construction emitted
the quotient of `2^T` by `ℓ` (remainder `3`).  The repository's own tests
assert that the emitted proof verifies. -/
theorem C1_roundtrip_fails_on_code :
    verify_safe_prime 5 = true ∧ Nat.gcd 5 91 = 1 ∧
    squarings 91 3 3 = 9 ∧
    VDF.run_vdf_worker ⟨91, 3, 3, 5⟩ 7 (fun _ => none) 3
      = some (WorkerMsg.ok (VDFProof.new 91 3 ⟨9, 3⟩ 5)) ∧
    VDFProof.verify (VDFProof.new 91 3 ⟨9, 3⟩ 5) = false := by decide

/-- C2 (counterexample).  The claimed acceptance condition `π < N ∧ …` is
wrong at `π = N`: the proof `⟨N, g, y, T, ℓ, π⟩ = ⟨7, 1, (0, 0), 3, 7⟩` has
`π = N = 7`, so `π < N` fails, yet `verify()` accepts it, because the source
rejects only on the strict comparison `proof > modulus`. -/
theorem C2_pi_eq_modulus_accepted :
    VDFProof.verify ⟨7, 1, ⟨0, 0⟩, 3, 7⟩ = true ∧ ¬ (7 : Nat) < 7 := by decide

/-- C2 (amended).  `verify()` returns true iff `π ≤ N` (not `π < N`) and
`y = (π^ℓ mod N) · (g^(T² mod ℓ) mod N) mod N` where `T = iterations`. -/
theorem C2_verify_characterization (p : VDFProof) :
    p.verify = true ↔
      (p.proof ≤ p.modulus ∧
        p.output.result =
          (p.proof ^ p.cap % p.modulus)
            * (p.base ^ (p.output.iterations ^ 2 % p.cap) % p.modulus)
            % p.modulus) := by
  unfold VDFProof.verify
  split
  · rename_i hlt
    simp only [Bool.false_eq_true, false_iff]
    rintro ⟨h1, -⟩
    omega
  · rename_i hlt
    rw [Nat.not_lt] at hlt
    simp [beq_iff_eq, hlt]

/-- C3.  `VDFProof::new` computes `π = g^⌊2^T / ℓ⌋ mod N`; after `i` loop
passes the running remainder is `2^i mod ℓ` (hence always below `ℓ`) and
each emitted quotient bit is 0 or 1. -/
theorem C3_construction (N g ℓ T y : Nat) (hN : 1 < N) (hodd : ℓ % 2 = 1)
    (hℓ : 2 < ℓ) :
    (VDFProof.new N g ⟨y, T⟩ ℓ).proof = g ^ (2 ^ T / ℓ) % N ∧
    (∀ i, (proofLoop N g ℓ i).2 = 2 ^ i % ℓ ∧ (proofLoop N g ℓ i).2 < ℓ) ∧
    (∀ i, 2 * (proofLoop N g ℓ i).2 / ℓ ≤ 1) := by
  have h1 : 1 < ℓ := by omega
  refine ⟨?_, fun i => ⟨proofLoop_snd N g ℓ h1 i, proofLoop_snd_lt N g ℓ h1 i⟩,
    fun i => proofLoop_bit_le_one N g ℓ h1 i⟩
  exact proofLoop_fst N g ℓ hN h1 T

theorem C3_construction_witness :
    (1 < 91 ∧ 5 % 2 = 1 ∧ 2 < 5) ∧
      ((VDFProof.new 91 3 ⟨42, 4⟩ 5).proof = 3 ^ (2 ^ 4 / 5) % 91 ∧
        (∀ i, (proofLoop 91 3 5 i).2 = 2 ^ i % 5 ∧ (proofLoop 91 3 5 i).2 < 5) ∧
        (∀ i, 2 * (proofLoop 91 3 5 i).2 / 5 ≤ 1)) :=
  ⟨by decide, C3_construction 91 3 5 4 42 (by decide) (by decide) (by decide)⟩

/-- C4 (counterexample).  The worker does not check coprimality of the cap
with `N`: with `N = 15` and preinstalled cap `5` (a safe prime sharing the
factor 5 with `N`, so `gcd(N, ℓ) ≠ 1`), the session emits a proof, not
`InvalidCap`. -/
theorem C4_coprimality_not_checked :
    Nat.gcd 15 5 ≠ 1 ∧ verify_safe_prime 5 = true ∧
    VDF.run_vdf_worker ⟨15, 2, 1, 5⟩ 7 (fun _ => none) 1
      = some (WorkerMsg.ok (VDFProof.new 15 2 ⟨4, 1⟩ 5)) := by decide

/-- C4 (amended).  `InvalidCap` — necessarily the session's only output, as
the worker sends one message — is emitted only because a finalizing cap
failed the safe-prime test: either the preinstalled cap is nonzero and fails
it at the upper bound, or some received channel cap fails it.  Coprimality
with `N` is never consulted, and a preinstalled cap of 0 is replaced by a
fresh safe prime rather than rejected. -/
theorem C4_invalidCap_from_failed_test (N g ub cap fresh : Nat)
    (recv : Nat → Option Nat) (fuel : Nat)
    (h : VDF.run_vdf_worker ⟨N, g, ub, cap⟩ fresh recv fuel
          = some WorkerMsg.invalidCap) :
    (cap ≠ 0 ∧ verify_safe_prime cap = false) ∨
      ∃ i c, recv i = some c ∧ verify_safe_prime c = false :=
  vdf_worker_loop_invalid N g ub cap fresh recv fuel g 0 h

theorem C4_invalidCap_from_failed_test_witness :
    VDF.run_vdf_worker ⟨91, 3, 5, 9⟩ 7 (fun _ => none) 5
        = some WorkerMsg.invalidCap ∧
      (((9 : Nat) ≠ 0 ∧ verify_safe_prime 9 = false) ∨
        ∃ i c, (fun _ : Nat => (none : Option Nat)) i = some c ∧
          verify_safe_prime c = false) :=
  ⟨by decide, C4_invalidCap_from_failed_test 91 3 5 9 7 (fun _ => none) 5 (by decide)⟩

/-- C5 (counterexample).  Non-triviality fails: with `N = 91`, `g = 3 ≠ 1`,
`T = 1 ≥ 1`, `ℓ = 5` the constructed proof field is 1 (the quotient
`⌊2^1/5⌋` is zero), and with `N = 8`, `g = 3 ≠ 1` one squaring already gives
`y = 9 mod 8 = 1`. -/
theorem C5_pi_and_y_can_be_one :
    (3 : Nat) ≠ 1 ∧ (1 : Nat) ≤ 1 ∧
    (VDFProof.new 91 3 ⟨9, 1⟩ 5).proof = 1 ∧
    squarings 8 3 1 = 1 := by decide

/-- C5 (amended).  The constructed `π` equals `g^⌊2^T/ℓ⌋ mod N`, so whenever
`2^T < ℓ` — as in the spec's own scenario S2, where `T = 30` and `ℓ` is a
128-bit prime — the proof field is 1 for every base, including `g ≠ 1` and
`T ≥ 1`. -/
theorem C5_pi_trivial_below_cap (N g y T ℓ : Nat) (hN : 1 < N)
    (h : 2 ^ T < ℓ) :
    (VDFProof.new N g ⟨y, T⟩ ℓ).proof = 1 := by
  have hℓ : 1 < ℓ := lt_of_le_of_lt Nat.one_le_two_pow h
  show (proofLoop N g ℓ T).1 = 1
  rw [proofLoop_fst N g ℓ hN hℓ T, Nat.div_eq_of_lt h, pow_zero,
    Nat.mod_eq_of_lt hN]

theorem C5_pi_trivial_below_cap_witness :
    (1 < 91 ∧ 2 ^ 1 < 5) ∧ (VDFProof.new 91 7 ⟨3, 1⟩ 5).proof = 1 :=
  ⟨by decide, C5_pi_trivial_below_cap 91 7 3 1 5 (by decide) (by decide)⟩

/-- C6.  Determinism: any two sessions over the same modulus and base whose
emitted proofs carry the same iteration count and the same cap yield
field-by-field equal `VDFProof` values (both as Lean equality and under the
embedded `PartialEq` comparison), whatever their upper bounds, preinstalled
caps, channel traffic, fresh primes, or fuel.  In particular two sessions
with identical `(N, g, ℓ)` stopping at the same `T` emit identical proofs. -/
theorem C6_determinism (N g ub1 ub2 cap1 cap2 fresh1 fresh2 : Nat)
    (recv1 recv2 : Nat → Option Nat) (fuel1 fuel2 : Nat) (p1 p2 : VDFProof)
    (h1 : VDF.run_vdf_worker ⟨N, g, ub1, cap1⟩ fresh1 recv1 fuel1
            = some (WorkerMsg.ok p1))
    (h2 : VDF.run_vdf_worker ⟨N, g, ub2, cap2⟩ fresh2 recv2 fuel2
            = some (WorkerMsg.ok p2))
    (hT : p1.output.iterations = p2.output.iterations)
    (hcap : p1.cap = p2.cap) :
    p1 = p2 ∧ VDFProof.eqFields p1 p2 = true := by
  have e1 := vdf_worker_loop_ok_shape N g ub1 cap1 fresh1 recv1 fuel1 0 p1 h1
  have e2 := vdf_worker_loop_ok_shape N g ub2 cap2 fresh2 recv2 fuel2 0 p2 h2
  have hpq : p1 = p2 := by rw [e1, e2, hT, hcap]
  refine ⟨hpq, ?_⟩
  rw [hpq]
  simp [VDFProof.eqFields]

theorem C6_determinism_witness :
    (VDF.run_vdf_worker ⟨91, 3, 3, 5⟩ 7 (fun _ => none) 3
        = some (WorkerMsg.ok (VDFProof.new 91 3 ⟨9, 3⟩ 5)) ∧
      VDF.run_vdf_worker ⟨91, 3, 10, 0⟩ 13 (capRecv 3 5) 10
        = some (WorkerMsg.ok (VDFProof.new 91 3 ⟨9, 3⟩ 5))) ∧
    (VDFProof.new 91 3 ⟨9, 3⟩ 5 = VDFProof.new 91 3 ⟨9, 3⟩ 5 ∧
      VDFProof.eqFields (VDFProof.new 91 3 ⟨9, 3⟩ 5)
        (VDFProof.new 91 3 ⟨9, 3⟩ 5) = true) :=
  ⟨⟨by decide, by decide⟩,
    C6_determinism 91 3 3 10 5 0 7 13 (fun _ => none) (capRecv 3 5) 3 10 _ _
      (by decide) (by decide) rfl rfl⟩

/-- C7 (counterexample).  With `upper_bound = 0` the claimed invariant
`iterations ≤ T_max` fails: a safe-prime cap received on the first poll makes
the worker emit a proof with `iterations = 1 > 0 = upper_bound`. -/
theorem C7_zero_bound_counterexample :
    VDF.run_vdf_worker ⟨91, 3, 0, 0⟩ 7 (capRecv 1 5) 3
      = some (WorkerMsg.ok (VDFProof.new 91 3 ⟨9, 1⟩ 5)) ∧
    (VDFProof.new 91 3 ⟨9, 1⟩ 5).output.iterations = 1 ∧ ¬ (1 : Nat) ≤ 0 := by
  decide

/-- C7 (amended).  Provided the session's `upper_bound` is at least 1, every
proof the worker emits satisfies `1 ≤ iterations ≤ upper_bound`, regardless
of when or whether a cap arrives. -/
theorem C7_iteration_bounds (N g ub cap fresh : Nat) (recv : Nat → Option Nat)
    (fuel : Nat) (p : VDFProof) (hub : 0 < ub)
    (h : VDF.run_vdf_worker ⟨N, g, ub, cap⟩ fresh recv fuel
          = some (WorkerMsg.ok p)) :
    1 ≤ p.output.iterations ∧ p.output.iterations ≤ ub :=
  vdf_worker_loop_iterations N g ub cap fresh recv fuel g 0 p hub h

theorem C7_iteration_bounds_witness :
    (0 < 3 ∧
      VDF.run_vdf_worker ⟨91, 3, 3, 5⟩ 11 (fun _ => none) 3
        = some (WorkerMsg.ok (VDFProof.new 91 3 ⟨9, 3⟩ 5))) ∧
    (1 ≤ (VDFProof.new 91 3 ⟨9, 3⟩ 5).output.iterations ∧
      (VDFProof.new 91 3 ⟨9, 3⟩ 5).output.iterations ≤ 3) :=
  ⟨⟨by decide, by decide⟩,
    C7_iteration_bounds 91 3 3 5 11 (fun _ => none) 3 _ (by decide) (by decide)⟩

/-- C8 (counterexample).  A proof with `π = N` — hence `π ≥ N`, which the
claim says is rejected — is accepted: `verify()` only rejects on the strict
comparison `proof > modulus`. -/
theorem C8_pi_ge_modulus_accepted :
    VDFProof.verify ⟨5, 1, ⟨0, 0⟩, 5, 5⟩ = true ∧ (5 : Nat) ≤ 5 := by decide

/-- C8 (amended).  In the embedding, `verify()` and `validate()` are total
boolean functions; `verify()` rejects every proof with `π > N` (though a
proof with `π = N` can be accepted), and `validate()` accepts exactly when
both gcd checks succeed — in particular it rejects whenever one fails. -/
theorem C8_structural_rejection (p : VDFProof) (h : p.modulus < p.proof) :
    p.verify = false ∧
      (p.validate = true ↔
        (Nat.gcd p.modulus p.base = 1 ∧ Nat.gcd p.modulus p.cap = 1)) := by
  constructor
  · unfold VDFProof.verify
    rw [if_pos h]
  · unfold VDFProof.validate
    simp [beq_iff_eq]

theorem C8_structural_rejection_witness :
    ((5 : Nat) < 7) ∧
      (VDFProof.verify ⟨5, 2, ⟨1, 4⟩, 3, 7⟩ = false ∧
        (VDFProof.validate ⟨5, 2, ⟨1, 4⟩, 3, 7⟩ = true ↔
          (Nat.gcd 5 2 = 1 ∧ Nat.gcd 5 3 = 1))) :=
  ⟨by decide, C8_structural_rejection ⟨5, 2, ⟨1, 4⟩, 3, 7⟩ (by decide)⟩

/-- C9 (counterexample).  The calibrator sends the output of
`Generator::new_prime(128)` — a prime that need not be safe — and the worker
rejects a non-safe prime cap.  With the sent value 13 (prime, but
`(13-1)/2 = 6` is composite), the calibration worker answers `InvalidCap`, no
proof is emitted, and the returned `VDF` is unchanged, contradicting the
claim that the cap sent is a safe prime and that the returned `upper_bound`
is the iteration count of an emitted proof. -/
theorem C9_nonsafe_prime_cap :
    isPrime 13 = true ∧ verify_safe_prime 13 = false ∧
    VDF.run_vdf_worker ⟨91, 3, 50, 0⟩ 7 (capRecv 1 13) 50
      = some WorkerMsg.invalidCap ∧
    VDF.estimate_upper_bound ⟨91, 3, 50, 0⟩ 13 7 1 50 = ⟨91, 3, 50, 0⟩ := by
  decide

/-- C9 (amended).  `estimate_upper_bound` runs a worker on a clone of the
session — with the session's existing `upper_bound`, not an unbounded
sentinel — sends the freshly generated prime (not necessarily safe), and
adopts the emitted proof's `iterations` as the new `upper_bound` exactly when
the worker replies with a proof, leaving the session untouched when it
replies `InvalidCap`. -/
theorem C9_upper_bound_update (v : VDF) (genPrime fresh arrival fuel : Nat)
    (m : WorkerMsg)
    (h : v.run_vdf_worker fresh (capRecv arrival genPrime) fuel = some m) :
    v.estimate_upper_bound genPrime fresh arrival fuel
      = calibrationResult v m := by
  unfold VDF.estimate_upper_bound
  rw [h]
  cases m <;> rfl

theorem C9_upper_bound_update_witness :
    (VDF.run_vdf_worker ⟨91, 3, 50, 0⟩ 7 (capRecv 4 5) 10
        = some (WorkerMsg.ok (VDFProof.new 91 3 ⟨81, 4⟩ 5))) ∧
    VDF.estimate_upper_bound ⟨91, 3, 50, 0⟩ 5 7 4 10 = ⟨91, 3, 4, 0⟩ :=
  ⟨by decide,
    C9_upper_bound_update ⟨91, 3, 50, 0⟩ 5 7 4 10
      (WorkerMsg.ok (VDFProof.new 91 3 ⟨81, 4⟩ 5)) (by decide)⟩

/-- C10.  `abs_difference` computes the absolute difference of the two
iteration counts: the ordering test on `VDFResult` (which compares by
`iterations` only) picks the larger count as minuend, so the truncated `Nat`
subtraction agrees with the exact integer absolute difference and never
underflows. -/
theorem C10_abs_difference (a b : VDFProof) :
    a.abs_difference b
      = ((a.output.iterations : ℤ) - (b.output.iterations : ℤ)).natAbs := by
  have hcmp : VDFResult.cmp a.output b.output = Ordering.gt ↔
      b.output.iterations < a.output.iterations := by
    simp [VDFResult.cmp, Nat.compare_eq_gt]
  unfold VDFProof.abs_difference
  split
  · rename_i h
    rw [hcmp] at h
    omega
  · rename_i h
    rw [hcmp] at h
    omega
